import Mathlib

/-!
# Verification of the ovote-node synchronization and vote-storage core

Shallow embedding of the repository's vote-package store
(`db/votepackages.go`), the Ethereum event-synchronization engine
(`eth/eth.go`) and the census status snapshot (pinned by the census tests).

Machine integers (`uint64`) are modelled as `Nat` with explicit `< 2^64`
bounds where overflow matters; `big.Int` weights are modelled as `Nat`
(the spec restricts weights to non-negative integers); byte slices are
`List Nat` whose elements stand for bytes.
-/

namespace Ovote

/-! ## Byte encodings

`binary.LittleEndian.PutUint64` writes a fixed-width little-endian
encoding; `big.Int.Bytes` produces the minimal big-endian encoding
(empty for zero) and `big.Int.SetBytes` reads a big-endian encoding. -/

/-- Fixed-width little-endian byte encoding, least significant byte first,
as written by `binary.LittleEndian.PutUint64` (with `w = 8`). -/
def leBytes : Nat → Nat → List Nat
  | 0, _ => []
  | w + 1, v => v % 256 :: leBytes w (v / 256)

/-- Minimal big-endian byte encoding, as produced by `big.Int.Bytes`:
the empty list for zero, otherwise most significant byte first. -/
def bigIntBytes (n : Nat) : List Nat :=
  if h : n = 0 then [] else bigIntBytes (n / 256) ++ [n % 256]
termination_by n
decreasing_by
  exact Nat.div_lt_self (Nat.pos_of_ne_zero h) (by norm_num)

/-- Big-endian interpretation of a byte list, as performed by
`big.Int.SetBytes`. -/
def bytesToNat (bs : List Nat) : Nat :=
  bs.foldl (fun a b => a * 256 + b) 0

/-! ## Data model

`types.VotePackage` carries a census proof (index, public key, weight,
Merkle proof), a 64-byte signature and the vote payload.  The babyjub
public key is modelled by the `Nat` whose 32 little-endian bytes are its
compressed form (`PublicKey.Compress`), so `identity = compressed key`. -/

/-- Process lifecycle status (`types.ProcessStatus`):
`on` (created), `frozen` (results publishing), `contractClosed`. -/
inductive ProcessStatus
  | on
  | frozen
  | contractClosed
deriving DecidableEq, Repr

/-- One row of the `processes` table (`db.StoreProcess` arguments plus
status). -/
structure ProcessRow where
  id : Nat
  censusRoot : List Nat
  censusSize : Nat
  createdBlock : Nat
  resPubStartBlock : Nat
  resPubWindow : Nat
  minParticipation : Nat
  typ : Nat
  status : ProcessStatus
deriving DecidableEq, Repr

/-- Embeds `types.CensusProof`: index, public key, weight (`nil` modelled as
`none`), Merkle proof bytes. -/
structure CensusProof where
  index : Nat
  publicKey : Nat
  weight : Option Nat
  merkleProof : List Nat
deriving DecidableEq, Repr

/-- Embeds `types.VotePackage`; `signature` stands for the `[64]byte` field, so
the Go type guarantees `signature.length = 64`. -/
structure VotePackage where
  censusProof : CensusProof
  signature : List Nat
  vote : List Nat
deriving DecidableEq, Repr

/-- One row of the `votepackages` table, column for column as written by
`StoreVotePackage` (the `insertedDatetime` column is never read back and
is omitted). `weight` holds the bytes produced by `big.Int.Bytes`. -/
structure VPRow where
  id : List Nat
  indx : Nat
  publicKey : Nat
  weight : List Nat
  merkleproof : List Nat
  signature : List Nat
  vote : List Nat
  processID : Nat
deriving DecidableEq, Repr

/-- The persisted relational state: the `processes` table, the
`votepackages` table (in insertion order) and the synchronization
checkpoint (`lastSyncBlockNum`). -/
structure DBState where
  processes : List ProcessRow
  votepackages : List VPRow
  lastSyncBlockNum : Nat
deriving DecidableEq, Repr

/-- Errors raised by the SQL engine on `INSERT` into `votepackages`:
violation of the `UNIQUE` id column, or of the `processID` foreign key.
(These are the two constraint failures the Go code distinguishes; the
foreign-key message is the exact string `StoreVotePackage` matches on.) -/
inductive SQLiteError
  | uniqueConstraintFailed
  | foreignKeyConstraintFailed
deriving DecidableEq, Repr

/-- Errors returned by `StoreVotePackage`: either a raw SQL-engine error
returned unchanged (`raw`), or the domain-specific errors.
`processNotFound` is the `fmt.Errorf("Can not store VotePackage,
ProcessID=%d does not exist", ...)` error actually built by the code;
`duplicateVote` is the domain-specific "duplicate vote" error the spec
describes — the type has the constructor so that the spec's claim can be
stated, but the code never produces it. -/
inductive StoreErr
  | raw (e : SQLiteError)
  | processNotFound (pid : Nat)
  | duplicateVote
deriving DecidableEq, Repr

/-! ## Vote-package store (`db/votepackages.go`) -/

/-- The 48-byte unique id built at `votepackages.go:44-48`:
8-byte little-endian index, 32-byte compressed public key,
8-byte little-endian process id. -/
def mkVoteID (index publicKey processID : Nat) : List Nat :=
  leBytes 8 index ++ leBytes 32 publicKey ++ leBytes 8 processID

/-- SQL semantics of the `INSERT INTO votepackages` statement: fails on a
duplicate `id` (UNIQUE column) or on a `processID` that references no
process row (FOREIGN KEY); otherwise appends the row. -/
def sqliteInsertVotePackage (st : DBState) (row : VPRow) :
    Except SQLiteError DBState :=
  if st.votepackages.any (fun r => r.id = row.id) then
    .error .uniqueConstraintFailed
  else if st.processes.any (fun p => p.id = row.processID) then
    .ok { st with votepackages := st.votepackages ++ [row] }
  else
    .error .foreignKeyConstraintFailed

/-- The row bound to the `INSERT` by `StoreVotePackage`
(`votepackages.go:34-52`): the composite id, the census-proof fields —
with a `nil` weight normalized to `0` (lines 34-37) and then serialized
through `big.Int.Bytes` — the 64 signature bytes and the vote payload. -/
def voteRow (processID : Nat) (vote : VotePackage) : VPRow :=
  { id := mkVoteID vote.censusProof.index vote.censusProof.publicKey processID
    indx := vote.censusProof.index
    publicKey := vote.censusProof.publicKey
    weight := bigIntBytes (vote.censusProof.weight.getD 0)
    merkleproof := vote.censusProof.merkleProof
    signature := vote.signature
    vote := vote.vote
    processID := processID }

/-- Embeds `StoreVotePackage` (`votepackages.go:12-60`): builds the row,
executes the insert, and maps only the foreign-key failure to the domain
"process not found" error; every other storage error is returned
unchanged. -/
def storeVotePackage (st : DBState) (processID : Nat) (vote : VotePackage) :
    Except StoreErr DBState :=
  match sqliteInsertVotePackage st (voteRow processID vote) with
  | .error .foreignKeyConstraintFailed => .error (.processNotFound processID)
  | .error e => .error (.raw e)
  | .ok st' => .ok st'

/-- The caller's view of a store call: the state after the call and the
returned error, if any.  A failed `INSERT` leaves the table unchanged. -/
def runStore (st : DBState) (processID : Nat) (vote : VotePackage) :
    DBState × Option StoreErr :=
  match storeVotePackage st processID vote with
  | .ok st' => (st', none)
  | .error e => (st, some e)

/-- Semantics of `copy(dst[:], src)` into a zeroed fixed-size byte array of length
`n`: copies `min n src.length` bytes, the rest stays zero. -/
def copyFixed (n : Nat) (src : List Nat) : List Nat :=
  src.take n ++ List.replicate (n - src.length) 0

/-- The row-scanning part of `ReadVotePackagesByProcessID`
(`votepackages.go:80-92`): rebuild a `VotePackage` from the selected
columns; the weight is `SetBytes` of the stored bytes, the signature is
copied into a zeroed `[64]byte`. -/
def rowToVotePackage (r : VPRow) : VotePackage :=
  { censusProof :=
      { index := r.indx
        publicKey := r.publicKey
        weight := some (bytesToNat r.weight)
        merkleProof := r.merkleproof }
    signature := copyFixed 64 r.signature
    vote := r.vote }

/-- The row ordering of `ORDER BY indx ASC`. -/
def vpRowLE (a b : VPRow) : Prop := a.indx ≤ b.indx

instance : DecidableRel vpRowLE := fun a b => Nat.decLe a.indx b.indx

instance : IsTotal VPRow vpRowLE := ⟨fun a b => Nat.le_total a.indx b.indx⟩

instance : IsTrans VPRow vpRowLE := ⟨fun _ _ _ => Nat.le_trans⟩

/-- Embeds `ReadVotePackagesByProcessID` (`votepackages.go:65-95`):
`SELECT ... WHERE processID = ? ORDER BY indx ASC`, then scan each row. -/
def readVotePackagesByProcessID (st : DBState) (processID : Nat) :
    List VotePackage :=
  (List.insertionSort vpRowLE
      (st.votepackages.filter (fun r => r.processID = processID))).map
    rowToVotePackage

/-! ## Event synchronization engine (`eth/eth.go`) -/

/-- Constant `eventNewProcessLen` (`eth.go:19`). -/
def eventNewProcessLen : Nat := 288

/-- Constant `eventResultPublishedLen` (`eth.go:22`). -/
def eventResultPublishedLen : Nat := 160

/-- Constant `eventProcessClosedLen` (`eth.go:25`). -/
def eventProcessClosedLen : Nat := 96

/-- The part of a go-ethereum `types.Log` the engine reads: the block
number and the raw payload bytes. -/
structure EventLog where
  blockNumber : Nat
  data : List Nat
deriving DecidableEq, Repr

/-- The `i`-th big-endian 32-byte word of a payload. -/
def beWord (data : List Nat) (i : Nat) : Nat :=
  bytesToNat ((data.drop (32 * i)).take 32)

/-- Decoded "new process" event. -/
structure EventNewProcess where
  processID : Nat
  censusRoot : List Nat
  censusSize : Nat
  resPubStartBlock : Nat
  resPubWindow : Nat
  minParticipation : Nat
  typ : Nat
deriving DecidableEq, Repr

/-- Decoded "result published" event. -/
structure EventResultPublished where
  processID : Nat
  result : List Nat
deriving DecidableEq, Repr

/-- Decoded "process closed" event. -/
structure EventProcessClosed where
  processID : Nat
deriving DecidableEq, Repr

/-- Decoding failure for an event payload. -/
inductive ParseErr
  | badLength
deriving DecidableEq, Repr

/-- Modelled from the spec: `parseEventNewProcess` (`eth/events.go`, not
under `src/`) decodes a 288-byte payload as big-endian 32-byte-aligned
fields in the order processID, censusRoot, censusSize,
resultsPubStartBlock, resultsPubWindow, minParticipation, type. -/
def parseEventNewProcess (data : List Nat) :
    Except ParseErr EventNewProcess :=
  if data.length = eventNewProcessLen then
    .ok { processID := beWord data 0
          censusRoot := (data.drop 32).take 32
          censusSize := beWord data 2
          resPubStartBlock := beWord data 3
          resPubWindow := beWord data 4
          minParticipation := beWord data 5
          typ := beWord data 6 }
  else .error .badLength

/-- Modelled from the spec: `parseEventResultPublished` (`eth/events.go`,
not under `src/`) decodes a 160-byte payload: processID plus result
fields (5 × 32 bytes total). -/
def parseEventResultPublished (data : List Nat) :
    Except ParseErr EventResultPublished :=
  if data.length = eventResultPublishedLen then
    .ok { processID := beWord data 0, result := data.drop 32 }
  else .error .badLength

/-- Modelled from the spec: `parseEventProcessClosed` (`eth/events.go`,
not under `src/`) decodes a 96-byte payload (3 × 32 bytes), the first
word being the processID. -/
def parseEventProcessClosed (data : List Nat) :
    Except ParseErr EventProcessClosed :=
  if data.length = eventProcessClosedLen then
    .ok { processID := beWord data 0 }
  else .error .badLength

/-- Errors raised by the process table. -/
inductive ProcessDbErr
  | processAlreadyExists (pid : Nat)
deriving DecidableEq, Repr

/-- Modelled from the spec: `db.StoreProcess` (`db/processes.go`, not
under `src/`) creates a process record with initial status `on` and
fails if the id already exists. -/
def storeProcess (st : DBState) (pid : Nat) (censusRoot : List Nat)
    (censusSize createdBlock resPubStartBlock resPubWindow minParticipation
      typ : Nat) : Except ProcessDbErr DBState :=
  if st.processes.any (fun p => p.id = pid) then
    .error (.processAlreadyExists pid)
  else
    .ok { st with
          processes := st.processes ++
            [{ id := pid, censusRoot, censusSize, createdBlock,
               resPubStartBlock, resPubWindow, minParticipation, typ,
               status := .on }] }

/-- Modelled from the spec: `db.UpdateProcessStatus` (`db/processes.go`,
not under `src/`) sets the status of the process with the given id
(SQL `UPDATE` semantics: rows that match are updated, others are left
alone). -/
def updateProcessStatus (st : DBState) (pid : Nat) (status : ProcessStatus) :
    DBState :=
  { st with
    processes := st.processes.map fun p =>
      if p.id = pid then { p with status := status } else p }

/-- Modelled from the spec: `db.FrozeProcessesByCurrentBlockNum`
(`db/processes.go`, not under `src/`) is the conditional bulk
transition of §5: only processes currently `on` whose
`resPubStartBlock` has been reached move to `frozen`. -/
def frozeProcessesByCurrentBlockNum (st : DBState) (blockNum : Nat) :
    DBState :=
  { st with
    processes := st.processes.map fun p =>
      if p.status = .on ∧ p.resPubStartBlock ≤ blockNum then
        { p with status := .frozen }
      else p }

/-- Modelled from the spec: `db.UpdateLastSyncBlockNum` (`db/blocks.go`,
not under `src/`) overwrites the persisted checkpoint. -/
def updateLastSyncBlockNum (st : DBState) (n : Nat) : DBState :=
  { st with lastSyncBlockNum := n }

/-- Errors returned by `processEventLog`, constructor for constructor the
`fmt.Errorf` cases of `eth.go:212-263`; each carries the context the Go
error message interpolates. -/
inductive ProcErr
  | parseNewProcess (blockNum : Nat) (data : List Nat) (e : ParseErr)
  | storingNewProcess (data : List Nat) (e : ProcessDbErr)
  | parseResultPublished (blockNum : Nat) (data : List Nat) (e : ParseErr)
  | parseProcessClosed (blockNum : Nat) (data : List Nat) (e : ParseErr)
  | unrecognizedEvent (len : Nat)
deriving DecidableEq, Repr

/-- Embeds `processEventLog` (`eth.go:212-263`): dispatch on the payload length;
288 → decode and store a new process, 160 → decode a published result
(log only), 96 → decode and set the process status to `contractClosed`,
any other length → the "unrecognized event log with length %d" error. -/
def processEventLog (st : DBState) (l : EventLog) : Except ProcErr DBState :=
  if l.data.length = eventNewProcessLen then
    match parseEventNewProcess l.data with
    | .error e => .error (.parseNewProcess l.blockNumber l.data e)
    | .ok e =>
      match storeProcess st e.processID e.censusRoot e.censusSize
          l.blockNumber e.resPubStartBlock e.resPubWindow
          e.minParticipation e.typ with
      | .error e' => .error (.storingNewProcess l.data e')
      | .ok st' => .ok st'
  else if l.data.length = eventResultPublishedLen then
    match parseEventResultPublished l.data with
    | .error e => .error (.parseResultPublished l.blockNumber l.data e)
    | .ok _ => .ok st
  else if l.data.length = eventProcessClosedLen then
    match parseEventProcessClosed l.data with
    | .error e => .error (.parseProcessClosed l.blockNumber l.data e)
    | .ok e => .ok (updateProcessStatus st e.processID .contractClosed)
  else
    .error (.unrecognizedEvent l.data.length)

/-- How every caller of `processEventLog` treats its result
(`eth.go:148-152` and `eth.go:202-207`): on error the caller logs and
continues with the state unchanged. -/
def applyEventLog (st : DBState) (l : EventLog) : DBState :=
  match processEventLog st l with
  | .ok st' => st'
  | .error _ => st

/-- The loop of `syncEventsHistory` (`eth.go:202-207`): apply every log
in order, logging and skipping failures. -/
def processLogs (st : DBState) (logs : List EventLog) : DBState :=
  logs.foldl applyEventLog st

/-- One observable action of the three concurrent sync activities: a new
block header (`syncBlocksLive`), a contract log event (`syncEventsLive`
or the backfill loop), or the freeze sweep of `syncHistory`. -/
inductive SyncOp
  | header (n : Nat)
  | logEvent (l : EventLog)
  | freeze (blockNum : Nat)
deriving DecidableEq, Repr

/-- The state transition each action performs on the persisted state:
a header advances the checkpoint (`eth.go:123`), a log event is applied
through `processEventLog` with errors logged and ignored, the freeze
sweep runs `FrozeProcessesByCurrentBlockNum` (`eth.go:177`). -/
def syncStep (st : DBState) : SyncOp → DBState
  | .header n => updateLastSyncBlockNum st n
  | .logEvent l => applyEventLog st l
  | .freeze blockNum => frozeProcessesByCurrentBlockNum st blockNum

/-- The block numbers of the header actions in an execution, in order. -/
def headerNums (ops : List SyncOp) : List Nat :=
  ops.filterMap fun op =>
    match op with
    | .header n => some n
    | _ => none

/-- The successive values of the persisted checkpoint along an
execution: the initial value, then the value after each action. -/
def checkpointTrace (st : DBState) : List SyncOp → List Nat
  | [] => [st.lastSyncBlockNum]
  | op :: ops => st.lastSyncBlockNum :: checkpointTrace (syncStep st op) ops

/-! ## Census status snapshot

The census implementation (`census/census.go`) is not under `src/`; only
its tests are.  The definitions below are modelled from the spec (§4.2),
with the root-reporting behaviour pinned by the repository's own test
`TestInfo` (`census/census_test.go`): after enrolling 100 keys in an open
census the test asserts `Info().Root = types.EmptyRoot`, and only after
`Close()` does it assert `Info().Root = census.Root()`. -/

/-- Constant `types.EmptyRoot`: the all-zero 32-byte root sentinel. -/
def emptyRoot : List Nat := List.replicate 32 0

/-- One leaf of the census tree: (index, compressed public key, weight). -/
structure CensusLeaf where
  index : Nat
  publicKey : Nat
  weight : Nat
deriving DecidableEq, Repr

/-- Modelled from the spec: the Poseidon-based sparse-Merkle-tree root of
the census leaves, abstracted as a fixed computable digest.  The only
property relied on is that the empty tree has the empty-root sentinel. -/
def censusTreeRoot (leaves : List CensusLeaf) : List Nat :=
  if leaves.isEmpty then emptyRoot
  else leBytes 32
    ((leaves.foldl
        (fun a lf => a * 1099511628211 + lf.index + lf.publicKey + lf.weight + 1)
        14695981039346656037) % 2 ^ 256)

/-- Modelled from the spec: the census state — the tree, the `nextIndex`
counter, the `closed` flag, and the committed root, which stays at the
empty-root sentinel until `Close()` fixes it (pinned by `TestInfo`). -/
structure Census where
  nextIndex : Nat
  closed : Bool
  leaves : List CensusLeaf
  root : List Nat
deriving DecidableEq, Repr

/-- A freshly created census: no leaves, `nextIndex = 0`, open, sentinel
root. -/
def newCensus : Census :=
  { nextIndex := 0, closed := false, leaves := [], root := emptyRoot }

/-- Census-domain errors. -/
inductive CensusErr
  | censusClosed
deriving DecidableEq, Repr

/-- One key of an `AddPublicKeys` batch: a key already present is
appended to the "invalids" result, otherwise it is enrolled at
`nextIndex`, which advances. -/
def addPublicKeysStep (acc : Census × List Nat) (kw : Nat × Nat) :
    Census × List Nat :=
  let c := acc.1
  if c.leaves.any (fun lf => lf.publicKey = kw.1) then
    (c, acc.2 ++ [kw.1])
  else
    ({ c with
        leaves := c.leaves ++ [{ index := c.nextIndex, publicKey := kw.1,
                                 weight := kw.2 }]
        nextIndex := c.nextIndex + 1 },
      acc.2)

/-- Modelled from the spec: `Census.AddPublicKeys` — fails wholesale if
the census is closed, otherwise enrolls each not-yet-present key and
returns the duplicates as "invalids". -/
def addPublicKeys (c : Census) (ks ws : List Nat) :
    Except CensusErr (Census × List Nat) :=
  if c.closed then .error .censusClosed
  else .ok ((ks.zip ws).foldl addPublicKeysStep (c, []))

/-- Modelled from the spec: `Census.Close` — marks the census closed and
fixes the committed root. -/
def closeCensus (c : Census) : Census :=
  { c with closed := true, root := censusTreeRoot c.leaves }

/-- The snapshot returned by `Census.Info` (`types.CensusInfo`). -/
structure CensusInfo where
  errMsg : String
  size : Nat
  closed : Bool
  root : List Nat
deriving DecidableEq, Repr

/-- Modelled from the spec: `Census.Info` — size is `nextIndex`, the
closed flag, and the committed root (which `TestInfo` pins to the
empty-root sentinel while the census is open). -/
def censusInfo (c : Census) : CensusInfo :=
  { errMsg := "", size := c.nextIndex, closed := c.closed, root := c.root }

/-- The censuses reachable from a fresh census through `AddPublicKeys`
and `Close`. -/
inductive CensusReached : Census → Prop
  | init : CensusReached newCensus
  | add (c : Census) (ks ws : List Nat) (c' : Census) (inv : List Nat) :
      CensusReached c → addPublicKeys c ks ws = .ok (c', inv) →
      CensusReached c'
  | close (c : Census) : CensusReached c → CensusReached (closeCensus c)

/-! ## Concrete fixtures for witnesses and counterexamples -/

/-- A concrete process record. -/
def cProc7 : ProcessRow :=
  { id := 7, censusRoot := List.replicate 32 1, censusSize := 3,
    createdBlock := 1, resPubStartBlock := 50, resPubWindow := 10,
    minParticipation := 2, typ := 1, status := .on }

/-- A database holding process 7 and no vote packages. -/
def cState0 : DBState :=
  { processes := [cProc7], votepackages := [], lastSyncBlockNum := 0 }

/-- A concrete vote package with an explicit weight. -/
def cVote1 : VotePackage :=
  { censusProof := { index := 1, publicKey := 2, weight := some 3,
                     merkleProof := [4, 5] },
    signature := List.replicate 64 6, vote := [9] }

/-- A concrete vote package with an absent (`nil`) weight. -/
def cVoteNil : VotePackage :=
  { censusProof := { index := 2, publicKey := 11, weight := none,
                     merkleProof := [] },
    signature := List.replicate 64 0, vote := [1] }

/-- The database after storing `cVote1` for process 7. -/
def cState1 : DBState := (runStore cState0 7 cVote1).1

/-- The database after storing `cVoteNil` for process 7. -/
def cStateNil : DBState := (runStore cState0 7 cVoteNil).1

/-- A log whose payload length (3) matches no known event. -/
def cLogBad : EventLog := { blockNumber := 5, data := [1, 2, 3] }

/-- A concrete 160-byte "result published" log. -/
def cLog160 : EventLog := { blockNumber := 12, data := List.replicate 160 7 }

/-- A concrete 96-byte "process closed" log (processID 0). -/
def cLog96 : EventLog := { blockNumber := 11, data := List.replicate 96 0 }

/-- A database whose only process (id 0) is already frozen. -/
def cStateFrozen : DBState :=
  { processes := [{ id := 0, censusRoot := [], censusSize := 1,
                    createdBlock := 0, resPubStartBlock := 4,
                    resPubWindow := 2, minParticipation := 1, typ := 1,
                    status := .frozen }],
    votepackages := [], lastSyncBlockNum := 0 }

/-- A concrete interleaved execution of the three sync activities. -/
def cOps : List SyncOp :=
  [.header 5, .logEvent cLogBad, .header 7, .freeze 9, .header 7]

/-- The open census holding one enrolled key (key 5, weight 1). -/
def cCensus1 : Census :=
  { nextIndex := 1, closed := false,
    leaves := [{ index := 0, publicKey := 5, weight := 1 }],
    root := emptyRoot }

/-! ## Helper lemmas -/

theorem leBytes_length (w v : Nat) : (leBytes w v).length = w := by
  induction w generalizing v with
  | zero => rfl
  | succ w ih => simp [leBytes, ih]

theorem leBytes_inj {w v₁ v₂ : Nat} (h₁ : v₁ < 256 ^ w) (h₂ : v₂ < 256 ^ w)
    (h : leBytes w v₁ = leBytes w v₂) : v₁ = v₂ := by
  induction w generalizing v₁ v₂ with
  | zero =>
    simp [Nat.pow_zero, Nat.lt_one_iff] at h₁ h₂
    omega
  | succ w ih =>
    simp only [leBytes, List.cons.injEq] at h
    have hd₁ : v₁ / 256 < 256 ^ w := by
      rw [Nat.div_lt_iff_lt_mul (by norm_num)]
      calc v₁ < 256 ^ (w + 1) := h₁
        _ = 256 ^ w * 256 := by rw [Nat.pow_succ]
    have hd₂ : v₂ / 256 < 256 ^ w := by
      rw [Nat.div_lt_iff_lt_mul (by norm_num)]
      calc v₂ < 256 ^ (w + 1) := h₂
        _ = 256 ^ w * 256 := by rw [Nat.pow_succ]
    have hdiv : v₁ / 256 = v₂ / 256 := ih hd₁ hd₂ h.2
    have hmod : v₁ % 256 = v₂ % 256 := h.1
    omega

theorem bytesToNat_append (xs : List Nat) (b : Nat) :
    bytesToNat (xs ++ [b]) = bytesToNat xs * 256 + b := by
  simp [bytesToNat, List.foldl_append]

/-- Round trip: `big.Int.SetBytes` is a left inverse of `big.Int.Bytes` on
non-negative integers: the weight round-trips numerically. -/
theorem bytesToNat_bigIntBytes (n : Nat) : bytesToNat (bigIntBytes n) = n := by
  induction n using Nat.strong_induction_on with
  | _ n ih =>
    by_cases h : n = 0
    · subst h; simp [bigIntBytes, bytesToNat]
    · rw [bigIntBytes]
      simp only [h, dite_false]
      rw [bytesToNat_append, ih (n / 256) (Nat.div_lt_self (Nat.pos_of_ne_zero h) (by norm_num))]
      omega

theorem pow256_eq_64 : (256 : Nat) ^ 8 = 2 ^ 64 := by norm_num

theorem pow256_eq_256 : (256 : Nat) ^ 32 = 2 ^ 256 := by norm_num

/-- Splitting a 48-byte id into its three fixed-width segments. -/
theorem mkVoteID_segments {i₁ k₁ p₁ i₂ k₂ p₂ : Nat}
    (h : mkVoteID i₁ k₁ p₁ = mkVoteID i₂ k₂ p₂) :
    leBytes 8 i₁ = leBytes 8 i₂ ∧ leBytes 32 k₁ = leBytes 32 k₂ ∧
      leBytes 8 p₁ = leBytes 8 p₂ := by
  unfold mkVoteID at h
  have h₁ := List.append_inj h (by simp [leBytes_length])
  have h₂ := List.append_inj h₁.1 (by simp [leBytes_length])
  exact ⟨h₂.1, h₂.2, h₁.2⟩

/-- The process-id segment of the composite id is injective on `uint64`
values, with no assumption on the other two segments. -/
theorem mkVoteID_pid_inj {i₁ k₁ p₁ i₂ k₂ p₂ : Nat}
    (hp₁ : p₁ < 2 ^ 64) (hp₂ : p₂ < 2 ^ 64)
    (h : mkVoteID i₁ k₁ p₁ = mkVoteID i₂ k₂ p₂) : p₁ = p₂ :=
  leBytes_inj (pow256_eq_64 ▸ hp₁) (pow256_eq_64 ▸ hp₂)
    (mkVoteID_segments h).2.2

/-- Full injectivity of the composite id on in-range components. -/
theorem mkVoteID_inj {i₁ k₁ p₁ i₂ k₂ p₂ : Nat}
    (hi₁ : i₁ < 2 ^ 64) (hi₂ : i₂ < 2 ^ 64)
    (hk₁ : k₁ < 2 ^ 256) (hk₂ : k₂ < 2 ^ 256)
    (hp₁ : p₁ < 2 ^ 64) (hp₂ : p₂ < 2 ^ 64)
    (h : mkVoteID i₁ k₁ p₁ = mkVoteID i₂ k₂ p₂) :
    i₁ = i₂ ∧ k₁ = k₂ ∧ p₁ = p₂ := by
  obtain ⟨hsi, hsk, hsp⟩ := mkVoteID_segments h
  exact ⟨leBytes_inj (pow256_eq_64 ▸ hi₁) (pow256_eq_64 ▸ hi₂) hsi,
    leBytes_inj (pow256_eq_256 ▸ hk₁) (pow256_eq_256 ▸ hk₂) hsk,
    leBytes_inj (pow256_eq_64 ▸ hp₁) (pow256_eq_64 ▸ hp₂) hsp⟩

/-- Inverting a successful store: the id was fresh, the process existed,
and the new state is the old one with the row appended. -/
theorem storeVotePackage_ok_elim {st st' : DBState} {pid : Nat}
    {v : VotePackage} (h : storeVotePackage st pid v = .ok st') :
    (st.votepackages.any fun r => r.id = (voteRow pid v).id) = false ∧
    (st.processes.any fun p => p.id = pid) = true ∧
    st' = { st with votepackages := st.votepackages ++ [voteRow pid v] } := by
  unfold storeVotePackage sqliteInsertVotePackage at h
  cases hdup : st.votepackages.any fun r => r.id = (voteRow pid v).id with
  | true => rw [hdup] at h; simp at h
  | false =>
    rw [hdup] at h
    cases hfk : st.processes.any fun p => p.id = (voteRow pid v).processID with
    | false => rw [hfk] at h; simp at h
    | true =>
      rw [hfk] at h
      simp only [if_true, if_false, Bool.false_eq_true, Bool.true_eq_false] at h
      refine ⟨rfl, hfk, ?_⟩
      injection h with h
      exact h.symm

/-- Frame: `processEventLog` never touches the synchronization checkpoint. -/
theorem processEventLog_lastSync {st st' : DBState} {l : EventLog}
    (h : processEventLog st l = .ok st') :
    st'.lastSyncBlockNum = st.lastSyncBlockNum := by
  unfold processEventLog at h
  split at h
  · split at h
    · simp at h
    · split at h
      · simp at h
      · rename_i st'' heq
        injection h with h
        subst h
        unfold storeProcess at heq
        split at heq
        · simp at heq
        · injection heq with heq
          subst heq
          rfl
  · split at h
    · split at h
      · simp at h
      · injection h with h
        subst h
        rfl
    · split at h
      · split at h
        · simp at h
        · injection h with h
          subst h
          rfl
      · simp at h

/-- The caller-side view: a log event, whether applied or skipped, leaves
the checkpoint unchanged. -/
theorem applyEventLog_lastSync (st : DBState) (l : EventLog) :
    (applyEventLog st l).lastSyncBlockNum = st.lastSyncBlockNum := by
  unfold applyEventLog
  cases h : processEventLog st l with
  | ok st' => exact processEventLog_lastSync h
  | error e => rfl

theorem headerNums_cons_header (n : Nat) (ops : List SyncOp) :
    headerNums (.header n :: ops) = n :: headerNums ops := rfl

theorem headerNums_cons_log (l : EventLog) (ops : List SyncOp) :
    headerNums (.logEvent l :: ops) = headerNums ops := rfl

theorem headerNums_cons_freeze (b : Nat) (ops : List SyncOp) :
    headerNums (.freeze b :: ops) = headerNums ops := rfl

theorem checkpointTrace_head (st : DBState) (ops : List SyncOp) :
    (checkpointTrace st ops).head? = some st.lastSyncBlockNum := by
  cases ops <;> rfl

/-- Frame: `AddPublicKeys` never touches the `closed` flag or the committed
root. -/
theorem addPublicKeysStep_foldl_preserves (kws : List (Nat × Nat))
    (acc : Census × List Nat) :
    (kws.foldl addPublicKeysStep acc).1.closed = acc.1.closed ∧
      (kws.foldl addPublicKeysStep acc).1.root = acc.1.root := by
  induction kws generalizing acc with
  | nil => exact ⟨rfl, rfl⟩
  | cons kw kws ih =>
    rw [List.foldl_cons]
    have hstep : (addPublicKeysStep acc kw).1.closed = acc.1.closed ∧
        (addPublicKeysStep acc kw).1.root = acc.1.root := by
      simp only [addPublicKeysStep]
      split <;> exact ⟨rfl, rfl⟩
    have hrest := ih (addPublicKeysStep acc kw)
    exact ⟨hrest.1.trans hstep.1, hrest.2.trans hstep.2⟩

/-! ## Claim theorems -/

/-- C10: the 48-byte record id built by `StoreVotePackage` — 8-byte
little-endian census index, 32-byte compressed public key, 8-byte
little-endian process id — is injective: two ids are equal if and only
if the (index, identity, processID) triples are equal, so uniqueness of
the id column enforces exactly the composite uniqueness key. -/
theorem voteID_injective (i₁ k₁ p₁ i₂ k₂ p₂ : Nat)
    (hi₁ : i₁ < 2 ^ 64) (hi₂ : i₂ < 2 ^ 64)
    (hk₁ : k₁ < 2 ^ 256) (hk₂ : k₂ < 2 ^ 256)
    (hp₁ : p₁ < 2 ^ 64) (hp₂ : p₂ < 2 ^ 64) :
    mkVoteID i₁ k₁ p₁ = mkVoteID i₂ k₂ p₂ ↔ i₁ = i₂ ∧ k₁ = k₂ ∧ p₁ = p₂ := by
  constructor
  · exact fun h => mkVoteID_inj hi₁ hi₂ hk₁ hk₂ hp₁ hp₂ h
  · rintro ⟨rfl, rfl, rfl⟩
    rfl

/-- Witness for C10 at concrete in-range components. -/
theorem voteID_injective_wit :
    mkVoteID 1 2 3 = mkVoteID 4 5 6 ↔ 1 = 4 ∧ 2 = 5 ∧ 3 = 6 :=
  voteID_injective 1 2 3 4 5 6 (by decide) (by decide) (by decide)
    (by decide) (by decide) (by decide)

/-- C6: `ReadVotePackagesByProcessID` returns exactly the vote packages
stored for the queried process (and no others), sorted in ascending
order of their census index. -/
theorem readVotePackages_exact_sorted (st : DBState) (pid : Nat) :
    List.Sorted (fun a b => a.censusProof.index ≤ b.censusProof.index)
      (readVotePackagesByProcessID st pid) ∧
    (readVotePackagesByProcessID st pid).Perm
      ((st.votepackages.filter fun r => r.processID = pid).map
        rowToVotePackage) := by
  constructor
  · rw [readVotePackagesByProcessID]
    exact List.Pairwise.map _ (fun a b hab => hab)
      (List.sorted_insertionSort vpRowLE
        (st.votepackages.filter fun r => r.processID = pid))
  · rw [readVotePackagesByProcessID]
    exact (List.perm_insertionSort vpRowLE _).map rowToVotePackage

/-- C2: an event log whose payload length is not 288, 160 or 96 yields
the unrecognized-event error carrying that length, changes no persisted
state, and the history-sync loop skips it and continues with the
remaining logs. -/
theorem processEventLog_unrecognized (st : DBState) (l : EventLog)
    (h₁ : l.data.length ≠ eventNewProcessLen)
    (h₂ : l.data.length ≠ eventResultPublishedLen)
    (h₃ : l.data.length ≠ eventProcessClosedLen) :
    processEventLog st l = .error (.unrecognizedEvent l.data.length) ∧
    ∀ rest : List EventLog,
      processLogs st (l :: rest) = processLogs st rest := by
  have hp : processEventLog st l =
      .error (.unrecognizedEvent l.data.length) := by
    unfold processEventLog
    rw [if_neg h₁, if_neg h₂, if_neg h₃]
  have happ : applyEventLog st l = st := by
    unfold applyEventLog
    rw [hp]
  refine ⟨hp, fun rest => ?_⟩
  unfold processLogs
  rw [List.foldl_cons, happ]

/-- Witness for C2: a 3-byte payload is rejected with its length and the
loop state is the same as if the log were absent. -/
theorem processEventLog_unrecognized_wit :
    processEventLog cState0 cLogBad = .error (.unrecognizedEvent 3) ∧
    processLogs cState0 [cLogBad] = processLogs cState0 [] :=
  ⟨(processEventLog_unrecognized cState0 cLogBad (by decide) (by decide)
      (by decide)).1,
   (processEventLog_unrecognized cState0 cLogBad (by decide) (by decide)
      (by decide)).2 []⟩

/-- C4: a successfully decoded ResultPublished event (160-byte payload)
is only decoded and logged: `processEventLog` returns the state it was
given, invoking no store operation. -/
theorem processEventLog_resultPublished_noop (st : DBState) (l : EventLog)
    (hlen : l.data.length = eventResultPublishedLen)
    (hdec : ∃ e, parseEventResultPublished l.data = Except.ok e) :
    processEventLog st l = .ok st := by
  have hne : l.data.length ≠ eventNewProcessLen := by
    rw [hlen]; decide
  unfold processEventLog
  rw [if_neg hne, if_pos hlen]
  obtain ⟨e, he⟩ := hdec
  cases hp : parseEventResultPublished l.data with
  | error e' => rw [hp] at he; exact absurd he (by simp)
  | ok e' => rfl

set_option maxRecDepth 4000 in
/-- Witness for C4 on a concrete 160-byte payload. -/
theorem processEventLog_resultPublished_noop_wit :
    processEventLog cState0 cLog160 = .ok cState0 :=
  processEventLog_resultPublished_noop cState0 cLog160 rfl ⟨_, rfl⟩

/-- C1 (amended): a second store with the same
(index, identity, processID) fails and leaves the stored state
unchanged, but the error is the SQL uniqueness-constraint failure
returned unchanged — a generic storage error, not the domain-specific
"duplicate vote" error. -/
theorem storeVotePackage_duplicate (st st₁ : DBState) (pid : Nat)
    (v₁ v₂ : VotePackage)
    (hfst : storeVotePackage st pid v₁ = .ok st₁)
    (hidx : v₂.censusProof.index = v₁.censusProof.index)
    (hpk : v₂.censusProof.publicKey = v₁.censusProof.publicKey) :
    runStore st₁ pid v₂ = (st₁, some (.raw .uniqueConstraintFailed)) := by
  obtain ⟨-, -, hst⟩ := storeVotePackage_ok_elim hfst
  have hid : (voteRow pid v₂).id = (voteRow pid v₁).id := by
    simp [voteRow, mkVoteID, hidx, hpk]
  have hdup : (st₁.votepackages.any fun r => r.id = (voteRow pid v₂).id)
      = true := by
    rw [hst, List.any_eq_true]
    exact ⟨voteRow pid v₁, by simp, by simp [hid]⟩
  unfold runStore storeVotePackage sqliteInsertVotePackage
  rw [hdup]
  simp

/-- C1 counterexample: storing `cVote1` twice for process 7 — the second
call fails, but with the raw storage error, which is not the
domain-specific duplicate-vote error the claim requires. -/
theorem storeVotePackage_duplicate_cex :
    runStore cState0 7 cVote1 = (cState1, none) ∧
    runStore cState1 7 cVote1 =
      (cState1, some (.raw .uniqueConstraintFailed)) ∧
    StoreErr.raw .uniqueConstraintFailed ≠ StoreErr.duplicateVote := by
  refine ⟨rfl, rfl, by decide⟩

/-- Witness for the amended C1 theorem at the concrete duplicate pair. -/
theorem storeVotePackage_duplicate_wit :
    runStore cState1 7 cVote1 =
      (cState1, some (.raw .uniqueConstraintFailed)) :=
  storeVotePackage_duplicate cState0 cState1 7 cVote1 cVote1 rfl rfl rfl

/-- C5: storing a vote package for a process id that has no process
record fails with the typed "process not found" error naming that id,
and no vote package row is persisted.  The hypotheses say the table
rows are well formed (their ids were built by `StoreVotePackage` and
reference existing processes), which holds of every reachable state. -/
theorem storeVotePackage_processNotFound (st : DBState) (pid : Nat)
    (v : VotePackage)
    (hpid : pid < 2 ^ 64)
    (hnp : ∀ p ∈ st.processes, p.id ≠ pid)
    (hwf : ∀ r ∈ st.votepackages,
      r.id = mkVoteID r.indx r.publicKey r.processID ∧
      r.processID < 2 ^ 64 ∧ ∃ p ∈ st.processes, p.id = r.processID) :
    runStore st pid v = (st, some (.processNotFound pid)) := by
  have hdup : (st.votepackages.any fun r => r.id = (voteRow pid v).id)
      = false := by
    rw [List.any_eq_false]
    intro r hr
    simp only [decide_eq_true_eq]
    intro hid
    obtain ⟨hrid, hrpid, p, hp, hpidr⟩ := hwf r hr
    rw [hrid] at hid
    simp only [voteRow] at hid
    have heq : r.processID = pid := mkVoteID_pid_inj hrpid hpid hid
    exact hnp p hp (hpidr.trans heq)
  have hfk : (st.processes.any fun p => p.id = (voteRow pid v).processID)
      = false := by
    rw [List.any_eq_false]
    intro p hp
    simpa [voteRow] using hnp p hp
  unfold runStore storeVotePackage sqliteInsertVotePackage
  rw [hdup, hfk]
  simp

/-- Witness for C5: process 5 does not exist in `cState0`. -/
theorem storeVotePackage_processNotFound_wit :
    runStore cState0 5 cVote1 = (cState0, some (.processNotFound 5)) :=
  storeVotePackage_processNotFound cState0 5 cVote1 (by decide) (by decide)
    (by decide)

/-- C7: a vote package stored by `StoreVotePackage` is returned by
`ReadVotePackagesByProcessID` with its weight numerically equal to the
stored weight, an absent (`nil`) weight having been normalized to 0
before persistence. -/
theorem storeVotePackage_weight_roundtrip (st st' : DBState) (pid : Nat)
    (v : VotePackage)
    (h : storeVotePackage st pid v = .ok st') :
    ∃ vp ∈ readVotePackagesByProcessID st' pid,
      vp.censusProof.index = v.censusProof.index ∧
      vp.censusProof.publicKey = v.censusProof.publicKey ∧
      vp.censusProof.weight = some (v.censusProof.weight.getD 0) := by
  obtain ⟨-, -, hst⟩ := storeVotePackage_ok_elim h
  refine ⟨rowToVotePackage (voteRow pid v), ?_, rfl, rfl, ?_⟩
  · unfold readVotePackagesByProcessID
    apply List.mem_map_of_mem
    rw [List.mem_insertionSort, List.mem_filter]
    constructor
    · rw [hst]; simp
    · simp [voteRow]
  · simp [rowToVotePackage, voteRow, bytesToNat_bigIntBytes]

/-- Witness for C7: storing the `nil`-weight package and reading it back
yields weight 0. -/
theorem storeVotePackage_weight_roundtrip_wit :
    ∃ vp ∈ readVotePackagesByProcessID cStateNil 7,
      vp.censusProof.index = cVoteNil.censusProof.index ∧
      vp.censusProof.publicKey = cVoteNil.censusProof.publicKey ∧
      vp.censusProof.weight = some (cVoteNil.censusProof.weight.getD 0) :=
  storeVotePackage_weight_roundtrip cState0 cStateNil 7 cVoteNil rfl

/-- C3: a successfully decoded ProcessClosed event (96-byte payload)
makes `processEventLog` set the referenced process's status to
`contractClosed` unconditionally — the update does not inspect the
prior status. -/
theorem processEventLog_processClosed (st : DBState) (l : EventLog)
    (e : EventProcessClosed)
    (hlen : l.data.length = eventProcessClosedLen)
    (hparse : parseEventProcessClosed l.data = .ok e) :
    processEventLog st l =
      .ok { st with
            processes := st.processes.map fun p =>
              if p.id = e.processID then { p with status := .contractClosed }
              else p } := by
  have h₁ : l.data.length ≠ eventNewProcessLen := by rw [hlen]; decide
  have h₂ : l.data.length ≠ eventResultPublishedLen := by rw [hlen]; decide
  unfold processEventLog
  rw [if_neg h₁, if_neg h₂, if_pos hlen, hparse]
  rfl

set_option maxRecDepth 4000 in
/-- Witness for C3: closing process 0 while it is already `frozen` still
sets it to `contractClosed`. -/
theorem processEventLog_processClosed_wit :
    processEventLog cStateFrozen cLog96 =
      .ok (updateProcessStatus cStateFrozen 0 .contractClosed) :=
  processEventLog_processClosed cStateFrozen cLog96 { processID := 0 }
    rfl rfl

/-- C8: along any interleaved execution of the three sync activities in
which the live header stream delivers non-decreasing block numbers
(starting at or above the stored checkpoint), the persisted checkpoint
is monotonically non-decreasing; and log-event application and the
freeze sweep never change the checkpoint — only the header loop
advances it. -/
theorem checkpoint_monotone_header_only (st : DBState) (ops : List SyncOp)
    (hmono : List.Chain (· ≤ ·) st.lastSyncBlockNum (headerNums ops)) :
    List.Chain' (· ≤ ·) (checkpointTrace st ops) ∧
    ∀ s : DBState, ∀ op ∈ ops, (∀ n, op ≠ .header n) →
      (syncStep s op).lastSyncBlockNum = s.lastSyncBlockNum := by
  constructor
  · revert hmono
    induction ops generalizing st with
    | nil =>
      intro hmono
      simp [checkpointTrace]
    | cons op ops ih =>
      intro hmono
      rw [checkpointTrace]
      apply List.chain'_cons'.2
      cases op with
      | header n =>
        rw [headerNums_cons_header, List.chain_cons] at hmono
        refine ⟨?_, ih _ hmono.2⟩
        intro b hb
        rw [checkpointTrace_head] at hb
        simp only [Option.mem_def, Option.some.injEq] at hb
        subst hb
        exact hmono.1
      | logEvent l =>
        rw [headerNums_cons_log] at hmono
        have hpre := applyEventLog_lastSync st l
        refine ⟨?_, ih _ ?_⟩
        · intro b hb
          rw [checkpointTrace_head] at hb
          simp only [Option.mem_def, Option.some.injEq] at hb
          subst hb
          exact le_of_eq hpre.symm
        · show List.Chain (· ≤ ·) (applyEventLog st l).lastSyncBlockNum _
          rw [hpre]
          exact hmono
      | freeze bn =>
        rw [headerNums_cons_freeze] at hmono
        refine ⟨?_, ih _ hmono⟩
        intro b hb
        rw [checkpointTrace_head] at hb
        simp only [Option.mem_def, Option.some.injEq] at hb
        subst hb
        exact le_refl _
  · intro s op hmem hnh
    cases op with
    | header n => exact absurd rfl (hnh n)
    | logEvent l => exact applyEventLog_lastSync s l
    | freeze bn => rfl

/-- Witness for C8 along a concrete interleaved execution. -/
theorem checkpoint_monotone_header_only_wit :
    List.Chain' (· ≤ ·) (checkpointTrace cState0 cOps) :=
  (checkpoint_monotone_header_only cState0 cOps
    (List.Chain.cons (by decide) (List.Chain.cons (by decide)
      (List.Chain.cons (by decide) List.Chain.nil)))).1

/-- C9 counterexample: `cCensus1` is reached by enrolling one key into a
fresh census; it has a leaf and is open, yet `Info` reports the
empty-root sentinel — exactly what the repository's `TestInfo` asserts,
and refuting "the sentinel is returned only when the census has no
leaves yet; a non-empty open census reports its actual (non-sentinel)
current root". -/
theorem censusInfo_root_cex :
    addPublicKeys newCensus [5] [1] = .ok (cCensus1, []) ∧
    cCensus1.leaves ≠ [] ∧
    cCensus1.closed = false ∧
    (censusInfo cCensus1).root = emptyRoot :=
  ⟨rfl, by decide, rfl, rfl⟩

/-- C9 (amended): for every reachable census, `Info` reports
size = `nextIndex`, the `closed` flag and an empty error message; its
root field is the empty-root sentinel while the census is open (whether
or not leaves exist), and the census tree root once it is closed. -/
theorem censusInfo_spec (c : Census) (hc : CensusReached c) :
    (censusInfo c).size = c.nextIndex ∧
    (censusInfo c).closed = c.closed ∧
    (censusInfo c).errMsg = "" ∧
    (c.closed = false → (censusInfo c).root = emptyRoot) ∧
    (c.closed = true → (censusInfo c).root = censusTreeRoot c.leaves) := by
  induction hc with
  | init =>
    exact ⟨rfl, rfl, rfl, fun _ => rfl, fun h => nomatch h⟩
  | add c ks ws c' inv hc haddok ih =>
    unfold addPublicKeys at haddok
    cases hcl : c.closed with
    | true => rw [hcl] at haddok; simp at haddok
    | false =>
      rw [hcl] at haddok
      simp only [Bool.false_eq_true, if_false] at haddok
      injection haddok with haddok
      have hpres := addPublicKeysStep_foldl_preserves (ks.zip ws) (c, [])
      rw [haddok] at hpres
      have hcl' : c'.closed = false := hpres.1.trans hcl
      have hroot : c'.root = emptyRoot := hpres.2.trans (ih.2.2.2.1 hcl)
      exact ⟨rfl, rfl, rfl, fun _ => hroot,
        fun h => nomatch hcl'.symm.trans h⟩
  | close c hc ih =>
    refine ⟨rfl, rfl, rfl, fun h => ?_, fun _ => rfl⟩
    simp [closeCensus] at h

/-- Witness for C9 (amended) at the reachable one-leaf open census. -/
theorem censusInfo_spec_wit :
    (censusInfo cCensus1).size = cCensus1.nextIndex ∧
    (censusInfo cCensus1).closed = cCensus1.closed ∧
    (censusInfo cCensus1).errMsg = "" ∧
    (cCensus1.closed = false → (censusInfo cCensus1).root = emptyRoot) ∧
    (cCensus1.closed = true →
      (censusInfo cCensus1).root = censusTreeRoot cCensus1.leaves) :=
  censusInfo_spec cCensus1
    (CensusReached.add newCensus [5] [1] cCensus1 [] CensusReached.init rfl)

end Ovote
